import Mathlib

/-!
Verification of the `binstruct` decode engine (`src/unmarshal.go`) against its
natural-language specification.  The engine is shallowly embedded: Go's
reflect-driven field walk becomes explicit recursion over an embedded value
universe, the seekable reader becomes a byte list with a cursor, and machine
integers become `Int`/`Nat` with explicit two's-complement reinterpretation.
-/

set_option maxHeartbeats 1000000

namespace Binstruct

/-- Little-endian interpretation of a byte list as an unsigned number. -/
def leNat : List Nat → Nat
  | [] => 0
  | b :: rest => b % 256 + 256 * leNat rest

/-- Two's-complement reinterpretation of a `w`-bit unsigned value as a signed integer. -/
def toSigned (w : Nat) (n : Nat) : Int :=
  if n < 2 ^ (w - 1) then (n : Int) else (n : Int) - 2 ^ w

/-- Modelled from the spec: the seekable byte-stream reader port (spec section 6).
The repository's reader implementation is not under `src/`; the spec describes it as a
sequential, seekable byte source.  We model it as a byte list with a cursor position,
plus a counter of performed read/seek operations (used to state "performs zero reads"). -/
structure Rdr where
  data : List Nat
  pos : Nat
  ops : Nat
deriving DecidableEq, Repr

/-- Modelled from the spec: `ReadBytes(n)` reads exactly `n` bytes, advancing the cursor;
a read past the available data fails with an end-of-data condition (spec section 6). -/
def Rdr.readBytes (r : Rdr) (n : Nat) : Rdr × Except String (List Nat) :=
  if r.pos + n ≤ r.data.length then
    (⟨r.data, r.pos + n, r.ops + 1⟩, .ok ((r.data.drop r.pos).take n))
  else
    (⟨r.data, r.pos, r.ops + 1⟩, .error "EOF")

/-- Modelled from the spec: fixed-width unsigned read of `k` bytes, little-endian
(spec sections 6 and 8). -/
def Rdr.readUintW (r : Rdr) (k : Nat) : Rdr × Except String Nat :=
  match r.readBytes k with
  | (r2, .ok bs) => (r2, .ok (leNat bs))
  | (r2, .error e) => (r2, .error e)

/-- Modelled from the spec: fixed-width signed read of `k` bytes, little-endian,
two's complement (spec sections 6 and 8). -/
def Rdr.readIntW (r : Rdr) (k : Nat) : Rdr × Except String Int :=
  match r.readBytes k with
  | (r2, .ok bs) => (r2, .ok (toSigned (8 * k) (leNat bs)))
  | (r2, .error e) => (r2, .error e)

def Rdr.readInt8 (r : Rdr) : Rdr × Except String Int := r.readIntW 1

def Rdr.readInt16 (r : Rdr) : Rdr × Except String Int := r.readIntW 2

def Rdr.readInt32 (r : Rdr) : Rdr × Except String Int := r.readIntW 4

def Rdr.readInt64 (r : Rdr) : Rdr × Except String Int := r.readIntW 8

def Rdr.readUint8 (r : Rdr) : Rdr × Except String Nat := r.readUintW 1

def Rdr.readUint16 (r : Rdr) : Rdr × Except String Nat := r.readUintW 2

def Rdr.readUint32 (r : Rdr) : Rdr × Except String Nat := r.readUintW 4

def Rdr.readUint64 (r : Rdr) : Rdr × Except String Nat := r.readUintW 8

/-- Modelled from the spec: 32-bit float read; the numeric value is kept as raw bits. -/
def Rdr.readFloat32 (r : Rdr) : Rdr × Except String Nat := r.readUintW 4

/-- Modelled from the spec: 64-bit float read; the numeric value is kept as raw bits. -/
def Rdr.readFloat64 (r : Rdr) : Rdr × Except String Nat := r.readUintW 8

/-- Modelled from the spec: single-byte boolean read. -/
def Rdr.readBool (r : Rdr) : Rdr × Except String Bool :=
  match r.readBytes 1 with
  | (r2, .ok bs) => (r2, .ok (bs.headD 0 != 0))
  | (r2, .error e) => (r2, .error e)

/-- Modelled from the spec: `Seek(offset, whence)` repositions the cursor relative to
start (0), current position (1) or end (2), failing on a negative resulting position. -/
def Rdr.seek (r : Rdr) (off : Int) (whence : Nat) : Rdr × Except String Int :=
  let base : Int := if whence = 0 then 0 else if whence = 1 then (r.pos : Int) else (r.data.length : Int)
  let npos : Int := base + off
  if npos < 0 then
    (⟨r.data, r.pos, r.ops + 1⟩, .error "seek: negative position")
  else
    (⟨r.data, npos.toNat, r.ops + 1⟩, .ok npos)

/-- Reader advanced by `k` bytes with `o` additional operations (statement helper). -/
def Rdr.advance (r : Rdr) (k o : Nat) : Rdr := ⟨r.data, r.pos + k, r.ops + o⟩

/-- Go types, as far as the reflection dispatch in `unmarshal.go` observes them. -/
inductive GoType where
  | tInt | tInt8 | tInt16 | tInt32 | tInt64
  | tUint | tUint8 | tUint16 | tUint32 | tUint64
  | tFloat32 | tFloat64
  | tBool
  | tString
  | tError
  | tSlice (elem : GoType)
  | tArray (size : Nat) (elem : GoType)
  | tStructRef (name : String)
  | tPtr (elem : GoType)
  | tOther (kindName : String)
deriving DecidableEq, Repr

/-- `reflect.Type.String()` as used in the engine's error messages. -/
def GoType.str : GoType → String
  | .tInt => "int"
  | .tInt8 => "int8"
  | .tInt16 => "int16"
  | .tInt32 => "int32"
  | .tInt64 => "int64"
  | .tUint => "uint"
  | .tUint8 => "uint8"
  | .tUint16 => "uint16"
  | .tUint32 => "uint32"
  | .tUint64 => "uint64"
  | .tFloat32 => "float32"
  | .tFloat64 => "float64"
  | .tBool => "bool"
  | .tString => "string"
  | .tError => "error"
  | .tSlice e => "[]" ++ e.str
  | .tArray n e => "[" ++ toString n ++ "]" ++ e.str
  | .tStructRef n => n
  | .tPtr e => "*" ++ e.str
  | .tOther k => k

/-- `reflect.Type.Name()` as used for the declaring record in the delegation error. -/
def GoType.typeName : GoType → String
  | .tStructRef n => n
  | .tOther k => k
  | _ => ""

/-- `reflect.Kind.String()` for the unsupported-kind error. -/
def GoType.kindStr : GoType → String
  | .tSlice _ => "slice"
  | .tArray _ _ => "array"
  | .tStructRef _ => "struct"
  | .tPtr _ => "ptr"
  | .tOther k => k
  | t => t.str

/-- Go runtime values of the embedded types. -/
inductive GoValue where
  | vInt (n : Int)
  | vUint (n : Nat)
  | vFloat (bits : Nat)
  | vBool (b : Bool)
  | vString (bytes : List Nat)
  | vSlice (elems : List GoValue)
  | vArray (elems : List GoValue)
  | vStruct (fields : List GoValue)
  | vError (e : Option String)
  | vNil

/-- A `reflect.Value` as the engine sees it: a typed value with its `CanSet` capability. -/
structure RValue where
  ty : GoType
  canSet : Bool
  val : GoValue

/-- The resolved per-field directive (`fieldReadData` in the source): ignore flag,
optional explicit length, delegate routine name, seek instructions, and the nested
directive for sequence elements. -/
inductive FieldReadData where
  | mk (ignore : Bool) (length : Option Int) (funcName : String)
      (offsets : List (Int × Nat)) (elemFieldData : Option FieldReadData)

def FieldReadData.ignore : FieldReadData → Bool
  | .mk i _ _ _ _ => i

def FieldReadData.length : FieldReadData → Option Int
  | .mk _ l _ _ _ => l

def FieldReadData.funcName : FieldReadData → String
  | .mk _ _ f _ _ => f

def FieldReadData.offsets : FieldReadData → List (Int × Nat)
  | .mk _ _ _ o _ => o

def FieldReadData.elemFieldData : FieldReadData → Option FieldReadData
  | .mk _ _ _ _ e => e

/-- The zero-valued directive the engine substitutes for a nil `fieldReadData`. -/
def emptyFieldReadData : FieldReadData := .mk false none "" [] none

/-- A struct field declaration: name, exportedness (drives `CanSet`), the directive
produced by the external tag parser, and the field's static type. -/
structure StructField where
  name : String
  exported : Bool
  fdata : Option FieldReadData
  ty : GoType

/-- A method reachable from a record, as the delegation resolver probes it:
its name, whether it takes exactly the reader as its sole parameter
(`NumIn() == 1 && In(0) == Reader`), its return types, and its behaviour. -/
structure GoMethod where
  name : String
  takesReaderOnly : Bool
  retTypes : List GoType
  run : Rdr → Rdr × List GoValue

/-- The Go type environment: field lists of named struct types and method sets. -/
structure Env where
  fieldsOf : String → List StructField
  methodsOf : String → List GoMethod

/-- Go error values produced by the engine: the typed invalid-argument error,
fresh message errors (`errors.New`), and wrapping (`errors.Wrap`). -/
inductive GoErrV where
  | invalidUnmarshal (t : Option GoType)
  | newErr (msg : String)
  | wrap (outer : String) (inner : GoErrV)
deriving DecidableEq, Repr

/-- The `Error()` string of an embedded Go error, mirroring
`InvalidUnmarshalError.Error` and `errors.Wrap` message composition. -/
def GoErrV.message : GoErrV → String
  | .invalidUnmarshal none => "binstruct: Unmarshal(nil)"
  | .invalidUnmarshal (some t) =>
    match t with
    | .tPtr e => "binstruct: Unmarshal(nil *" ++ e.str ++ ")"
    | _ => "binstruct: Unmarshal(non-pointer " ++ t.str ++ ")"
  | .newErr m => m
  | .wrap o e => o ++ ": " ++ e.message

/-- The argument passed to the top-level entry point (`interface{}` in Go):
a nil interface, a non-pointer value, a nil typed pointer, or a live pointer
(carrying the pointee's type, settability and current value). -/
inductive UArg where
  | nilArg
  | nonPtr (ty : GoType) (v : GoValue)
  | ptrNil (elemTy : GoType)
  | ptrTo (elemTy : GoType) (settable : Bool) (v : GoValue)

/-- The `reflect.Type` recorded in `InvalidUnmarshalError` for each invalid argument. -/
def UArg.argType : UArg → Option GoType
  | .nilArg => none
  | .nonPtr t _ => some t
  | .ptrNil t => some (.tPtr t)
  | .ptrTo t _ _ => some (.tPtr t)

/-- Result of a decoding step: success, a returned Go error, a Go runtime panic,
or exhaustion of the recursion fuel (a modelling artifact, never an engine outcome). -/
inductive Res (α : Type) where
  | ok (r : Rdr) (a : α)
  | fail (r : Rdr) (a : α) (e : GoErrV)
  | crash (msg : String)
  | fuelOut

/-- Outcome of the delegation fallback loop over ancestor records. -/
inductive CallRes where
  | errored (r : Rdr) (fv : RValue) (e : String)
  | served (r : Rdr) (fv : RValue)
  | noMatch (r : Rdr) (fv : RValue)

/-- Nil test (`IsNil`) on an error-typed value returned by a delegate routine. -/
def getErrVal : GoValue → Option String
  | .vError e => e
  | _ => none

/-- `structValue.Addr().MethodByName(funcName)`: the method the candidate record
resolves for a routine name (first method of that name in the record's method set). -/
def lookedUpMethod (env : Env) (structValue : RValue) (funcName : String) : Option GoMethod :=
  (env.methodsOf structValue.ty.typeName).find? (fun m => m.name == funcName)

/-- Embedding of `callFunc` (unmarshal.go lines 265-298): look up a method of the
given name on the candidate record; if it takes exactly the reader as its sole
parameter, invoke it and recognise the two return shapes `error` and
`(FieldType, error)`; any other shape yields no match and no error.  Returns the
reader, the (possibly updated) field value, the matched flag and the returned error. -/
def callFunc (env : Env) (r : Rdr) (funcName : String) (structValue fieldValue : RValue) :
    Rdr × RValue × Bool × Option String :=
  match lookedUpMethod env structValue funcName with
  | none => (r, fieldValue, false, none)
  | some m =>
    if m.takesReaderOnly then
      let res := m.run r
      let r2 := res.1
      let ret := res.2
      if m.retTypes = [.tError] then
        (r2, fieldValue, true, getErrVal (ret.headD .vNil))
      else if m.retTypes = [fieldValue.ty, .tError] then
        match getErrVal (ret.getD 1 .vNil) with
        | some e => (r2, fieldValue, true, some e)
        | none =>
          if fieldValue.canSet then
            (r2, { fieldValue with val := ret.headD .vNil }, true, none)
          else
            (r2, fieldValue, true, none)
      else (r2, fieldValue, false, none)
    else (r, fieldValue, false, none)

/-- Embedding of `setOffset`'s loop (unmarshal.go lines 300-309): apply each seek
instruction in order, wrapping a failure with "seek". -/
def setOffsetLoop (r : Rdr) : List (Int × Nat) → Rdr × Option GoErrV
  | [] => (r, none)
  | (off, wh) :: rest =>
    match r.seek off wh with
    | (r2, .error e) => (r2, some (.wrap "seek" (.newErr e)))
    | (r2, .ok _) => setOffsetLoop r2 rest

/-- Embedding of `setOffset` (unmarshal.go lines 300-309). -/
def setOffset (r : Rdr) (fd : FieldReadData) : Rdr × Option GoErrV :=
  setOffsetLoop r fd.offsets

/-- Embedding of the ancestor fallback loop (unmarshal.go lines 88-99); the list
argument is the ancestor chain already reversed, i.e. nearest enclosing record first. -/
def tryParentFuncs (env : Env) (funcName : String) : Rdr → RValue → List RValue → CallRes
  | r, fv, [] => .noMatch r fv
  | r, fv, sv :: rest =>
    match callFunc env r funcName sv fv with
    | (r2, fv2, _, some e) => .errored r2 fv2 e
    | (r2, fv2, true, none) => .served r2 fv2
    | (r2, fv2, false, none) => tryParentFuncs env funcName r2 fv2 rest

/-- The delegation-failure diagnostic (unmarshal.go lines 101-112), naming the two
accepted method signatures, the declaring record type, the method name and the
field's static type. -/
def callFuncErrMessage (structName methodName fieldType : String) : String :=
  "\nfailed call method, expected methods:\n\tfunc (*" ++ structName ++ ") " ++
    methodName ++ "(r binstruct.Reader) error \x7b\x7d \nor\n\tfunc (*" ++ structName ++
    ") " ++ methodName ++ "(r binstruct.Reader) (" ++ fieldType ++ ", error) \x7b\x7d\n"

/-- The zero value of a Go type (`reflect.New(t).Elem()`), with recursion fuel for
nested struct types. -/
def zeroValue (env : Env) : Nat → GoType → GoValue
  | 0, _ => .vNil
  | fuel + 1, t =>
    match t with
    | .tInt | .tInt8 | .tInt16 | .tInt32 | .tInt64 => .vInt 0
    | .tUint | .tUint8 | .tUint16 | .tUint32 | .tUint64 => .vUint 0
    | .tFloat32 | .tFloat64 => .vFloat 0
    | .tBool => .vBool false
    | .tString => .vString []
    | .tError => .vError none
    | .tSlice _ => .vSlice []
    | .tArray n e => .vArray (List.replicate n (zeroValue env fuel e))
    | .tStructRef name => .vStruct ((env.fieldsOf name).map (fun f => zeroValue env fuel f.ty))
    | .tPtr _ => .vNil
    | .tOther _ => .vNil

/-- Per-element decode loop for slices (unmarshal.go lines 222-231): run the element
step on a fresh zero element, then append to the slice value when the field is
settable; a failing element aborts with the slice as accumulated so far. -/
def sliceLoopS (step : Rdr → Res RValue) : Nat → Rdr → RValue → Res RValue
  | 0, r, fv => .ok r fv
  | c + 1, r, fv =>
    match step r with
    | .ok r2 tmp =>
      let fv2 := if fv.canSet then
          { fv with val := match fv.val with
                           | .vSlice es => GoValue.vSlice (es ++ [tmp.val])
                           | v => v }
        else fv
      sliceLoopS step c r2 fv2
    | .fail r2 _ e => .fail r2 fv e
    | .crash m => .crash m
    | .fuelOut => .fuelOut

/-- Per-element decode loop for arrays (unmarshal.go lines 243-252): indexed
assignment, guarded only by `CanSet`; `reflect.Value.Index` panics past the array's
static length. -/
def arrayLoopS (step : Rdr → Res RValue) : Nat → Nat → Rdr → RValue → Res RValue
  | _, 0, r, fv => .ok r fv
  | idx, c + 1, r, fv =>
    match step r with
    | .ok r2 tmp =>
      if fv.canSet then
        match fv.val with
        | .vArray es =>
          if idx < es.length then
            arrayLoopS step (idx + 1) c r2 { fv with val := .vArray (es.set idx tmp.val) }
          else .crash "reflect: array index out of range"
        | _ => .crash "reflect: array index out of range"
      else arrayLoopS step (idx + 1) c r2 fv
    | .fail r2 _ e => .fail r2 fv e
    | .crash m => .crash m
    | .fuelOut => .fuelOut

/-- The per-field decoding step threaded through the record walk: applied to the
field declaration, the enclosing record value, the field's `reflect.Value` and the
ancestor chain. -/
def Step : Type := StructField → RValue → RValue → List RValue → Rdr → Res RValue

/-- The field iteration of `unmarshal` (unmarshal.go lines 45-62): decode the fields
in declaration order, writing each decoded value in place at its index `i` of the
record's value list (Go mutates `structValue.Field(i)` through reflection); stop at
the first failure, wrapping it with the field's name.  On failure the already-written
values remain written (no rollback). -/
def unmarshalLoopS (step : Step) (structName : String) (settable : Bool)
    (parents : List RValue) :
    Rdr → Nat → List StructField → List GoValue → Res (List GoValue)
  | r, _, [], vals => .ok r vals
  | r, i, f :: fs, vals =>
    let structValue : RValue := ⟨.tStructRef structName, settable, .vStruct vals⟩
    let fieldValue : RValue := ⟨f.ty, settable && f.exported, vals.getD i .vNil⟩
    match step f structValue fieldValue parents r with
    | .ok r2 fv2 =>
      unmarshalLoopS step structName settable parents r2 (i + 1) fs (vals.set i fv2.val)
    | .fail r2 fv2 e =>
      .fail r2 (vals.set i fv2.val)
        (.wrap ("failed set value to field \"" ++ f.name ++ "\"") e)
    | .crash m => .crash m
    | .fuelOut => .fuelOut

/-- Target value carried by a live pointer argument (statement helper). -/
def UArg.ptrVal : UArg → GoValue → GoValue
  | .ptrTo _ _ v, _ => v
  | _, dflt => dflt

/-- Embedding of `unmarshal` (unmarshal.go lines 35-65), parameterised by the
per-field step: reject a nil or non-pointer argument with `InvalidUnmarshalError`
before touching the reader, then walk the pointed-to record's fields in order. -/
def unmarshalCore (env : Env) (step : Step) (r : Rdr) (arg : UArg) (parents : List RValue) :
    Res UArg :=
  match arg with
  | .nilArg => .fail r .nilArg (.invalidUnmarshal none)
  | .nonPtr t v => .fail r (.nonPtr t v) (.invalidUnmarshal (some t))
  | .ptrNil t => .fail r (.ptrNil t) (.invalidUnmarshal (some (.tPtr t)))
  | .ptrTo elemTy settable v =>
    match elemTy, v with
    | .tStructRef name, .vStruct vals =>
      match unmarshalLoopS step name settable parents r 0 (env.fieldsOf name) vals with
      | .ok r2 vals2 => .ok r2 (.ptrTo (.tStructRef name) settable (.vStruct vals2))
      | .fail r2 vals2 e => .fail r2 (.ptrTo (.tStructRef name) settable (.vStruct vals2)) e
      | .crash m => .crash m
      | .fuelOut => .fuelOut
    | t, _ => .crash ("reflect: NumField of non-struct type " ++ t.str)

/-- Embedding of `setValueToField` (unmarshal.go lines 67-263): substitute the
default directive for nil, honour `ignore`, apply seek instructions, dispatch to the
delegation resolver when a routine name is set, and otherwise dispatch on the field's
static kind.  `fuel` bounds recursion into nested records and sequence elements (a
modelling artifact; the Go recursion is bounded by the finite type structure). -/
def setValueToField (env : Env) :
    Nat → Rdr → RValue → RValue → Option FieldReadData → List RValue → Res RValue
  | 0, _, _, _, _, _ => .fuelOut
  | fuel + 1, r, structValue, fieldValue, fdOpt, parents =>
    let fieldData := fdOpt.getD emptyFieldReadData
    if fieldData.ignore then .ok r fieldValue
    else
      match setOffset r fieldData with
      | (r1, some e) => .fail r1 fieldValue (.wrap "set offset" e)
      | (r1, none) =>
        if fieldData.funcName ≠ "" then
          match callFunc env r1 fieldData.funcName structValue fieldValue with
          | (r2, fv2, _, some e) => .fail r2 fv2 (.wrap "call custom func" (.newErr e))
          | (r2, fv2, true, none) => .ok r2 fv2
          | (r2, fv2, false, none) =>
            match tryParentFuncs env fieldData.funcName r2 fv2 parents.reverse with
            | .errored r3 fv3 e => .fail r3 fv3 (.wrap "call custom func" (.newErr e))
            | .served r3 fv3 => .ok r3 fv3
            | .noMatch r3 fv3 =>
              .fail r3 fv3 (.newErr (callFuncErrMessage structValue.ty.typeName
                fieldData.funcName fieldValue.ty.str))
        else
          match fieldValue.ty with
          | .tInt | .tInt8 | .tInt16 | .tInt32 | .tInt64 =>
            let res : Rdr × Except String Int :=
              if fieldData.length = some 1 ∨ fieldValue.ty = .tInt8 then r1.readInt8
              else if fieldData.length = some 2 ∨ fieldValue.ty = .tInt16 then r1.readInt16
              else if fieldData.length = some 4 ∨ fieldValue.ty = .tInt32 then r1.readInt32
              else if fieldData.length = some 8 ∨ fieldValue.ty = .tInt64 then r1.readInt64
              else (r1, .error "need set tag with len or use int8/int16/int32/int64")
            match res with
            | (r2, .error e) => .fail r2 fieldValue (.newErr e)
            | (r2, .ok value) =>
              .ok r2 (if fieldValue.canSet then { fieldValue with val := .vInt value }
                      else fieldValue)
          | .tUint | .tUint8 | .tUint16 | .tUint32 | .tUint64 =>
            let res : Rdr × Except String Nat :=
              if fieldData.length = some 1 ∨ fieldValue.ty = .tUint8 then r1.readUint8
              else if fieldData.length = some 2 ∨ fieldValue.ty = .tUint16 then r1.readUint16
              else if fieldData.length = some 4 ∨ fieldValue.ty = .tUint32 then r1.readUint32
              else if fieldData.length = some 8 ∨ fieldValue.ty = .tUint64 then r1.readUint64
              else (r1, .error "need set tag with len or use uint8/uint16/uint32/uint64")
            match res with
            | (r2, .error e) => .fail r2 fieldValue (.newErr e)
            | (r2, .ok value) =>
              .ok r2 (if fieldValue.canSet then { fieldValue with val := .vUint value }
                      else fieldValue)
          | .tFloat32 =>
            match r1.readFloat32 with
            | (r2, .error e) => .fail r2 fieldValue (.newErr e)
            | (r2, .ok f) =>
              .ok r2 (if fieldValue.canSet then { fieldValue with val := .vFloat f }
                      else fieldValue)
          | .tFloat64 =>
            match r1.readFloat64 with
            | (r2, .error e) => .fail r2 fieldValue (.newErr e)
            | (r2, .ok f) =>
              .ok r2 (if fieldValue.canSet then { fieldValue with val := .vFloat f }
                      else fieldValue)
          | .tBool =>
            match r1.readBool with
            | (r2, .error e) => .fail r2 fieldValue (.newErr e)
            | (r2, .ok b) =>
              .ok r2 (if fieldValue.canSet then { fieldValue with val := .vBool b }
                      else fieldValue)
          | .tString =>
            match fieldData.length with
            | none => .fail r1 fieldValue (.newErr "need set tag with len for string")
            | some len =>
              match r1.readBytes len.toNat with
              | (r2, .error e) => .fail r2 fieldValue (.newErr e)
              | (r2, .ok bs) =>
                .ok r2 (if fieldValue.canSet then { fieldValue with val := .vString bs }
                        else fieldValue)
          | .tSlice elemTy =>
            match fieldData.length with
            | none => .fail r1 fieldValue (.newErr "need set tag with len for slice")
            | some len =>
              sliceLoopS
                (fun rr => setValueToField env fuel rr structValue
                  ⟨elemTy, true, zeroValue env fuel elemTy⟩ fieldData.elemFieldData parents)
                len.toNat r1 fieldValue
          | .tArray n elemTy =>
            let arrLen0 : Int := match fieldData.length with | some l => l | none => 0
            let arrLen : Int := if arrLen0 = 0 then (n : Int) else arrLen0
            arrayLoopS
              (fun rr => setValueToField env fuel rr structValue
                ⟨elemTy, true, zeroValue env fuel elemTy⟩ fieldData.elemFieldData parents)
              0 arrLen.toNat r1 fieldValue
          | .tStructRef name =>
            match unmarshalCore env
                (fun f sv fv ps rr => setValueToField env fuel rr sv fv f.fdata ps)
                r1 (.ptrTo (.tStructRef name) fieldValue.canSet fieldValue.val)
                (parents ++ [structValue]) with
            | .ok r2 a => .ok r2 { fieldValue with val := a.ptrVal fieldValue.val }
            | .fail r2 a e =>
              .fail r2 { fieldValue with val := a.ptrVal fieldValue.val }
                (.wrap "unmarshal struct" e)
            | .crash m => .crash m
            | .fuelOut => .fuelOut
          | t => .fail r1 fieldValue (.newErr ("type \"" ++ t.kindStr ++ "\" not supported"))

/-- The per-field step used by the engine proper: `setValueToField` at the given fuel. -/
def fieldStep (env : Env) (fuel : Nat) : Step :=
  fun f sv fv ps rr => setValueToField env fuel rr sv fv f.fdata ps

/-- Embedding of the exported entry point `Unmarshal` (unmarshal.go lines 31-33):
`unmarshal` with an empty ancestor chain. -/
def Unmarshal (env : Env) (fuel : Nat) (r : Rdr) (arg : UArg) : Res UArg :=
  unmarshalCore env (fieldStep env fuel) r arg []

/-! ### Specification-side helper notions -/

/-- A routine signature the delegation resolver accepts for a field of static type
`fieldTy`: exactly the reader as sole parameter, returning `error` or
`(fieldTy, error)`. -/
def compatibleMethod (fieldTy : GoType) (m : GoMethod) : Prop :=
  m.takesReaderOnly = true ∧ (m.retTypes = [.tError] ∨ m.retTypes = [fieldTy, .tError])

/-- The candidate record offers a routine of the given name compatible with a field
of static type `fieldTy` (the spec's notion of a "compatible routine"). -/
def offersCompatible (env : Env) (rv : RValue) (fieldTy : GoType) (fn : String) : Prop :=
  ∃ m, lookedUpMethod env rv fn = some m ∧ compatibleMethod fieldTy m

/-- Engine outcome of a matched delegate invocation: a returned error is wrapped with
"call custom func"; otherwise the field is handled (statement helper). -/
def delegateOutcome : Rdr × RValue × Bool × Option String → Res RValue
  | (r, fv, _, some e) => .fail r fv (.wrap "call custom func" (.newErr e))
  | (r, fv, _, none) => .ok r fv

/-- `callFunc`'s result folded into the fallback-loop outcome (statement helper). -/
def callResOf : Rdr × RValue × Bool × Option String → CallRes
  | (r, fv, _, some e) => .errored r fv e
  | (r, fv, true, none) => .served r fv
  | (r, fv, false, none) => .noMatch r fv

/-- Sequential overwrite of list entries starting at an index (statement helper for
the array element loop). -/
def writeSeq : List GoValue → Nat → List GoValue → List GoValue
  | es, _, [] => es
  | es, idx, x :: xs => writeSeq (es.set idx x) (idx + 1) xs

/-- Bytes decoded as unsigned-8-bit element values (statement helper). -/
def bytesToU8 (bs : List Nat) : List GoValue := bs.map (fun b => .vUint (b % 256))

/-! ### Shared lemmas about the delegation resolver -/

lemma callFunc_not_compatible (env : Env) (r : Rdr) (fn : String) (sv fv : RValue)
    (h : ¬offersCompatible env sv fv.ty fn) :
    ∃ r2, callFunc env r fn sv fv = (r2, fv, false, none) := by
  unfold callFunc
  cases hfind : lookedUpMethod env sv fn with
  | none => exact ⟨r, rfl⟩
  | some m =>
    by_cases hro : m.takesReaderOnly
    · have h1 : ¬m.retTypes = [GoType.tError] := fun hc => h ⟨m, hfind, hro, Or.inl hc⟩
      have h2 : ¬m.retTypes = [fv.ty, GoType.tError] := fun hc => h ⟨m, hfind, hro, Or.inr hc⟩
      exact ⟨(m.run r).1, by simp [hro, h1, h2]⟩
    · exact ⟨r, by simp [hro]⟩

lemma callFunc_flag_true_of_compatible (env : Env) (r : Rdr) (fn : String) (sv fv : RValue)
    (h : offersCompatible env sv fv.ty fn) :
    (callFunc env r fn sv fv).2.2.1 = true := by
  obtain ⟨m, hfind, hro, hshape⟩ := h
  unfold callFunc
  rw [hfind]
  rcases hshape with hs | hs
  · simp [hro, hs]
  · have hne : ¬m.retTypes = [GoType.tError] := by
      rw [hs]; intro hc; exact absurd (congrArg List.length hc) (by simp)
    simp only [hro, if_true, hs, hne, if_false, if_pos rfl]
    cases hge : getErrVal ((m.run r).2.getD 1 .vNil) with
    | some e => simp [hge]
    | none => cases hcs : fv.canSet <;> simp [hge, hcs]

lemma offers_of_callFunc_flag (env : Env) (r : Rdr) (fn : String) (sv fv : RValue)
    (h : (callFunc env r fn sv fv).2.2.1 = true) :
    offersCompatible env sv fv.ty fn := by
  by_contra hn
  obtain ⟨r2, heq⟩ := callFunc_not_compatible env r fn sv fv hn
  rw [heq] at h
  exact absurd h (by simp)

lemma tryParents_no_match (env : Env) (fn : String) :
    ∀ (list : List RValue) (r : Rdr) (fv : RValue),
      (∀ p ∈ list, ¬offersCompatible env p fv.ty fn) →
      ∃ r2, tryParentFuncs env fn r fv list = .noMatch r2 fv := by
  intro list
  induction list with
  | nil => exact fun r fv _ => ⟨r, rfl⟩
  | cons sv rest ih =>
    intro r fv h
    obtain ⟨r2, heq⟩ := callFunc_not_compatible env r fn sv fv (h sv (by simp))
    obtain ⟨r3, h3⟩ := ih r2 fv (fun p hp => h p (by simp [hp]))
    refine ⟨r3, ?_⟩
    rw [show tryParentFuncs env fn r fv (sv :: rest) = tryParentFuncs env fn r2 fv rest from by
      simp [tryParentFuncs, heq]]
    exact h3

lemma tryParents_first_compatible (env : Env) (fn : String) :
    ∀ (pre : List RValue) (c : RValue) (post : List RValue) (r : Rdr) (fv : RValue),
      (∀ p ∈ pre, ¬offersCompatible env p fv.ty fn) →
      offersCompatible env c fv.ty fn →
      ∃ r0, tryParentFuncs env fn r fv (pre ++ c :: post)
        = callResOf (callFunc env r0 fn c fv) := by
  intro pre
  induction pre with
  | nil =>
    intro c post r fv _ hc
    refine ⟨r, ?_⟩
    have hflag := callFunc_flag_true_of_compatible env r fn c fv hc
    rcases hcf : callFunc env r fn c fv with ⟨r2, fv2, flag, err⟩
    rw [hcf] at hflag
    simp only at hflag
    subst hflag
    cases err with
    | some e => simp [tryParentFuncs, hcf, callResOf]
    | none => simp [tryParentFuncs, hcf, callResOf]
  | cons p rest ih =>
    intro c post r fv hpre hc
    obtain ⟨r2, heq⟩ := callFunc_not_compatible env r fn p fv (hpre p (by simp))
    obtain ⟨r0, h0⟩ := ih c post r2 fv (fun q hq => hpre q (by simp [hq])) hc
    refine ⟨r0, ?_⟩
    rw [show tryParentFuncs env fn r fv (p :: rest ++ c :: post)
        = tryParentFuncs env fn r2 fv (rest ++ c :: post) from by
      rw [List.cons_append]; simp [tryParentFuncs, heq]]
    exact h0

/-! ### Shared lemmas about the reader primitives -/

lemma readBytes_ok (r : Rdr) (k : Nat) (h : r.pos + k ≤ r.data.length) :
    r.readBytes k = (r.advance k 1, .ok ((r.data.drop r.pos).take k)) := by
  simp [Rdr.readBytes, Rdr.advance, h]

lemma readBytes_err (r : Rdr) (k : Nat) (h : ¬r.pos + k ≤ r.data.length) :
    r.readBytes k = (⟨r.data, r.pos, r.ops + 1⟩, .error "EOF") := by
  simp [Rdr.readBytes, h]

lemma readUintW_ok (r : Rdr) (k : Nat) (h : r.pos + k ≤ r.data.length) :
    r.readUintW k = (r.advance k 1, .ok (leNat ((r.data.drop r.pos).take k))) := by
  simp [Rdr.readUintW, readBytes_ok r k h]

lemma readIntW_ok (r : Rdr) (k : Nat) (h : r.pos + k ≤ r.data.length) :
    r.readIntW k
      = (r.advance k 1, .ok (toSigned (8 * k) (leNat ((r.data.drop r.pos).take k)))) := by
  simp [Rdr.readIntW, readBytes_ok r k h]

/-- Unfolding of `setValueToField` on a pure delegate directive (no ignore, no seek,
routine name set): the engine first consults the current record, then the reversed
ancestor chain, and otherwise produces the descriptive error. -/
lemma setValueToField_delegate (env : Env) (fuel : Nat) (r : Rdr) (sv fv : RValue)
    (fn : String) (hfn : ¬fn = "") (ps : List RValue) :
    setValueToField env (fuel + 1) r sv fv (some (.mk false none fn [] none)) ps
      = match callFunc env r fn sv fv with
        | (r2, fv2, _, some e) => .fail r2 fv2 (.wrap "call custom func" (.newErr e))
        | (r2, fv2, true, none) => .ok r2 fv2
        | (r2, fv2, false, none) =>
          match tryParentFuncs env fn r2 fv2 ps.reverse with
          | .errored r3 fv3 e => .fail r3 fv3 (.wrap "call custom func" (.newErr e))
          | .served r3 fv3 => .ok r3 fv3
          | .noMatch r3 fv3 =>
            .fail r3 fv3 (.newErr (callFuncErrMessage sv.ty.typeName fn fv.ty.str)) := by
  simp [setValueToField, FieldReadData.ignore, FieldReadData.funcName, FieldReadData.offsets,
    setOffset, setOffsetLoop, hfn]

/-! ### Claim theorems -/

/-- C4 counterexample: a non-nil pointer to a non-record (here `*int`) is not a
non-nil writable reference to a record, yet the entry point does not fail with the
invalid-target error: the argument passes the `Kind() != Ptr || IsNil()` guard and
the decode panics at `structValue.NumField()` instead. -/
theorem c4_invalid_target_counterexample :
    Unmarshal ⟨fun _ => [], fun _ => []⟩ 3 ⟨[1, 2], 0, 0⟩ (.ptrTo .tInt true (.vInt 0))
      = .crash "reflect: NumField of non-struct type int" := rfl

/-- C4 amended: calling the top-level entry point with a nil interface, a non-pointer
value, or a nil typed pointer fails with the invalid-target error
(`InvalidUnmarshalError` recording the argument's type) and returns the reader
exactly as given — the operation counter is untouched, so zero reads and zero seeks
were performed; a non-nil pointer to anything other than a record, however, passes
the pointer guard and the decode panics at `NumField` rather than returning the
invalid-target error. -/
theorem c4_invalid_target (env : Env) (fuel : Nat) (r : Rdr) (arg : UArg) :
    ((arg = .nilArg ∨ (∃ t v, arg = .nonPtr t v) ∨ (∃ t, arg = .ptrNil t)) →
      Unmarshal env fuel r arg = .fail r arg (.invalidUnmarshal arg.argType)) ∧
    (∀ t s v, arg = .ptrTo t s v → (∀ name, ¬t = .tStructRef name) →
      Unmarshal env fuel r arg
        = .crash ("reflect: NumField of non-struct type " ++ t.str)) := by
  constructor
  · intro h
    rcases h with h | ⟨t, v, h⟩ | ⟨t, h⟩ <;> subst h <;> rfl
  · intro t s v harg hns
    subst harg
    cases t with
    | tStructRef name => exact absurd rfl (hns name)
    | _ => rfl

theorem c4_invalid_target_witness :
    (Unmarshal ⟨fun _ => [], fun _ => []⟩ 3 ⟨[1, 2], 0, 0⟩ (.nonPtr .tInt (.vInt 5))
      = .fail ⟨[1, 2], 0, 0⟩ (.nonPtr .tInt (.vInt 5)) (.invalidUnmarshal (some .tInt))) ∧
    (Unmarshal ⟨fun _ => [], fun _ => []⟩ 3 ⟨[1, 2], 0, 0⟩ (.ptrTo .tFloat64 true (.vFloat 0))
      = .crash "reflect: NumField of non-struct type float64") :=
  ⟨(c4_invalid_target ⟨fun _ => [], fun _ => []⟩ 3 ⟨[1, 2], 0, 0⟩
      (.nonPtr .tInt (.vInt 5))).1 (Or.inr (Or.inl ⟨.tInt, .vInt 5, rfl⟩)),
    (c4_invalid_target ⟨fun _ => [], fun _ => []⟩ 3 ⟨[1, 2], 0, 0⟩
      (.ptrTo .tFloat64 true (.vFloat 0))).2 .tFloat64 true (.vFloat 0) rfl
      (fun _ h => nomatch h)⟩

/-- C5: the resolver treats a caller-supplied routine as a matching delegate iff it
is reachable by name from the candidate record, takes exactly the reader as its sole
parameter, and returns either a single error value or a value of the field's static
type plus an error value; any other shape is no match rather than an error — the
matched flag is false, no error is reported and the field value is untouched. -/
theorem c5_delegate_signature (env : Env) (r : Rdr) (fn : String) (sv fv : RValue) :
    ((callFunc env r fn sv fv).2.2.1 = true ↔ offersCompatible env sv fv.ty fn) ∧
    (¬offersCompatible env sv fv.ty fn →
      ∃ r2, callFunc env r fn sv fv = (r2, fv, false, none)) :=
  ⟨⟨offers_of_callFunc_flag env r fn sv fv, callFunc_flag_true_of_compatible env r fn sv fv⟩,
    callFunc_not_compatible env r fn sv fv⟩

theorem c5_delegate_signature_witness :
    ∃ r2, callFunc ⟨fun _ => [], fun _ => []⟩ ⟨[], 0, 0⟩ "Decode"
        ⟨.tStructRef "S", true, .vStruct []⟩ ⟨.tUint8, true, .vUint 0⟩
      = (r2, ⟨.tUint8, true, .vUint 0⟩, false, none) :=
  (c5_delegate_signature ⟨fun _ => [], fun _ => []⟩ ⟨[], 0, 0⟩ "Decode"
    ⟨.tStructRef "S", true, .vStruct []⟩ ⟨.tUint8, true, .vUint 0⟩).2
    (fun ⟨_, hm, _⟩ => nomatch hm)

/-- C8: a slice field with directive length 3 and unsigned-8-bit elements over bytes
01 02 03 decodes to the sequence [1, 2, 3]; the same field with length 2 over the
same bytes decodes to [1, 2] and leaves the reader cursor at byte index 2; a slice
field with no declared length fails with the "need set tag with len for slice"
error. -/
theorem c8_slice_decoding :
    (setValueToField ⟨fun _ => [], fun _ => []⟩ 5 ⟨[1, 2, 3], 0, 0⟩
        ⟨.tStructRef "S", true, .vStruct []⟩ ⟨.tSlice .tUint8, true, .vSlice []⟩
        (some (.mk false (some 3) "" [] none)) []
      = .ok ⟨[1, 2, 3], 3, 3⟩
          ⟨.tSlice .tUint8, true, .vSlice [.vUint 1, .vUint 2, .vUint 3]⟩) ∧
    (setValueToField ⟨fun _ => [], fun _ => []⟩ 5 ⟨[1, 2, 3], 0, 0⟩
        ⟨.tStructRef "S", true, .vStruct []⟩ ⟨.tSlice .tUint8, true, .vSlice []⟩
        (some (.mk false (some 2) "" [] none)) []
      = .ok ⟨[1, 2, 3], 2, 2⟩ ⟨.tSlice .tUint8, true, .vSlice [.vUint 1, .vUint 2]⟩) ∧
    (setValueToField ⟨fun _ => [], fun _ => []⟩ 5 ⟨[1, 2, 3], 0, 0⟩
        ⟨.tStructRef "S", true, .vStruct []⟩ ⟨.tSlice .tUint8, true, .vSlice []⟩
        (some (.mk false none "" [] none)) []
      = .fail ⟨[1, 2, 3], 0, 0⟩ ⟨.tSlice .tUint8, true, .vSlice []⟩
          (.newErr "need set tag with len for slice")) :=
  ⟨rfl, rfl, rfl⟩

/-- C2 counterexample: an int32 field with directive length 8 over 8 bytes performs a
32-bit read — the cursor advances to 4 after one read operation and the value is the
32-bit decode 1 — not the 64-bit read that "a directive length of 8 selects a 64-bit
read for every integer field" would require (the type-implied 32-bit case matches
before the length-8 case in the engine's dispatch order). -/
theorem c2_width_selection_counterexample :
    setValueToField ⟨fun _ => [], fun _ => []⟩ 1 ⟨[1, 0, 0, 0, 2, 0, 0, 0], 0, 0⟩
        ⟨.tStructRef "S", true, .vStruct []⟩ ⟨.tInt32, true, .vInt 0⟩
        (some (.mk false (some 8) "" [] none)) []
      = .ok ⟨[1, 0, 0, 0, 2, 0, 0, 0], 4, 1⟩ ⟨.tInt32, true, .vInt 1⟩ := rfl

/-- C2 amended: integer width selection tries, in order, the cases
(length 1 | int8), (length 2 | int16), (length 4 | int32), (length 8 | int64), with
the first match winning.  Hence for generic-width int and uint fields a directive
length of 1, 2, 4 or 8 selects the 8-, 16-, 32- or 64-bit read respectively; with no
length a fixed-width type implies its own width (an int32 field over bytes
01 00 00 00 decodes to 1); a generic-width integer field with no width-resolving
length fails with the "need set tag with len ..." error and no value is written. -/
theorem c2_integer_width_selection (env : Env) (fuel : Nat) (r : Rdr)
    (sv : RValue) (ps : List RValue) :
    ((r.pos + 1 ≤ r.data.length →
      setValueToField env (fuel + 1) r sv ⟨.tInt, true, .vInt 0⟩
          (some (.mk false (some 1) "" [] none)) ps
        = .ok (r.advance 1 1)
            ⟨.tInt, true, .vInt (toSigned 8 (leNat ((r.data.drop r.pos).take 1)))⟩) ∧
     (r.pos + 2 ≤ r.data.length →
      setValueToField env (fuel + 1) r sv ⟨.tInt, true, .vInt 0⟩
          (some (.mk false (some 2) "" [] none)) ps
        = .ok (r.advance 2 1)
            ⟨.tInt, true, .vInt (toSigned 16 (leNat ((r.data.drop r.pos).take 2)))⟩) ∧
     (r.pos + 4 ≤ r.data.length →
      setValueToField env (fuel + 1) r sv ⟨.tInt, true, .vInt 0⟩
          (some (.mk false (some 4) "" [] none)) ps
        = .ok (r.advance 4 1)
            ⟨.tInt, true, .vInt (toSigned 32 (leNat ((r.data.drop r.pos).take 4)))⟩) ∧
     (r.pos + 8 ≤ r.data.length →
      setValueToField env (fuel + 1) r sv ⟨.tInt, true, .vInt 0⟩
          (some (.mk false (some 8) "" [] none)) ps
        = .ok (r.advance 8 1)
            ⟨.tInt, true, .vInt (toSigned 64 (leNat ((r.data.drop r.pos).take 8)))⟩)) ∧
    ((r.pos + 1 ≤ r.data.length →
      setValueToField env (fuel + 1) r sv ⟨.tUint, true, .vUint 0⟩
          (some (.mk false (some 1) "" [] none)) ps
        = .ok (r.advance 1 1) ⟨.tUint, true, .vUint (leNat ((r.data.drop r.pos).take 1))⟩) ∧
     (r.pos + 2 ≤ r.data.length →
      setValueToField env (fuel + 1) r sv ⟨.tUint, true, .vUint 0⟩
          (some (.mk false (some 2) "" [] none)) ps
        = .ok (r.advance 2 1) ⟨.tUint, true, .vUint (leNat ((r.data.drop r.pos).take 2))⟩) ∧
     (r.pos + 4 ≤ r.data.length →
      setValueToField env (fuel + 1) r sv ⟨.tUint, true, .vUint 0⟩
          (some (.mk false (some 4) "" [] none)) ps
        = .ok (r.advance 4 1) ⟨.tUint, true, .vUint (leNat ((r.data.drop r.pos).take 4))⟩) ∧
     (r.pos + 8 ≤ r.data.length →
      setValueToField env (fuel + 1) r sv ⟨.tUint, true, .vUint 0⟩
          (some (.mk false (some 8) "" [] none)) ps
        = .ok (r.advance 8 1) ⟨.tUint, true, .vUint (leNat ((r.data.drop r.pos).take 8))⟩)) ∧
    (r.pos + 4 ≤ r.data.length →
      setValueToField env (fuel + 1) r sv ⟨.tInt32, true, .vInt 0⟩
          (some (.mk false none "" [] none)) ps
        = .ok (r.advance 4 1)
            ⟨.tInt32, true, .vInt (toSigned 32 (leNat ((r.data.drop r.pos).take 4)))⟩) ∧
    (setValueToField env (fuel + 1) ⟨[1, 0, 0, 0], 0, 0⟩ sv ⟨.tInt32, true, .vInt 0⟩
        (some (.mk false none "" [] none)) ps
      = .ok ⟨[1, 0, 0, 0], 4, 1⟩ ⟨.tInt32, true, .vInt 1⟩) ∧
    (∀ v : GoValue,
      setValueToField env (fuel + 1) r sv ⟨.tInt, true, v⟩
          (some (.mk false none "" [] none)) ps
        = .fail r ⟨.tInt, true, v⟩
            (.newErr "need set tag with len or use int8/int16/int32/int64")) ∧
    (∀ v : GoValue,
      setValueToField env (fuel + 1) r sv ⟨.tUint, true, v⟩
          (some (.mk false none "" [] none)) ps
        = .fail r ⟨.tUint, true, v⟩
            (.newErr "need set tag with len or use uint8/uint16/uint32/uint64")) := by
  refine ⟨⟨fun h => ?_, fun h => ?_, fun h => ?_, fun h => ?_⟩,
    ⟨fun h => ?_, fun h => ?_, fun h => ?_, fun h => ?_⟩, fun h => ?_, ?_, fun v => ?_, fun v => ?_⟩
  all_goals
    simp [setValueToField, setOffset, setOffsetLoop, FieldReadData.ignore,
      FieldReadData.funcName, FieldReadData.length, FieldReadData.offsets,
      FieldReadData.elemFieldData, Rdr.readInt8, Rdr.readInt16,
      Rdr.readInt32, Rdr.readInt64, Rdr.readUint8, Rdr.readUint16, Rdr.readUint32,
      Rdr.readUint64, readIntW_ok, readUintW_ok, toSigned, Rdr.advance, leNat, *]

theorem c2_integer_width_selection_witness :
    setValueToField ⟨fun _ => [], fun _ => []⟩ 1 ⟨[5, 6], 0, 0⟩
        ⟨.tStructRef "S", true, .vStruct []⟩ ⟨.tInt, true, .vInt 0⟩
        (some (.mk false (some 2) "" [] none)) []
      = .ok (Rdr.advance ⟨[5, 6], 0, 0⟩ 2 1)
          ⟨.tInt, true, .vInt (toSigned 16 (leNat (([5, 6].drop 0).take 2)))⟩ :=
  (c2_integer_width_selection ⟨fun _ => [], fun _ => []⟩ 0 ⟨[5, 6], 0, 0⟩
    ⟨.tStructRef "S", true, .vStruct []⟩ []).1.2.1 (by decide)

/-- C6 counterexample: an int8 field with directive length 3 (a value outside
{1, 2, 4, 8}) decodes without any binding error — the type-implied 8-bit case
matches, so the decode succeeds and reads one byte instead of aborting. -/
theorem c6_length_validation_counterexample :
    setValueToField ⟨fun _ => [], fun _ => []⟩ 1 ⟨[7], 0, 0⟩
        ⟨.tStructRef "S", true, .vStruct []⟩ ⟨.tInt8, true, .vInt 0⟩
        (some (.mk false (some 3) "" [] none)) []
      = .ok ⟨[7], 1, 1⟩ ⟨.tInt8, true, .vInt 7⟩ := rfl

/-- C6 amended: only a generic-width integer field (int or uint) with a present
directive length outside {1, 2, 4, 8} aborts with the engine's binding error
("need set tag with len or use ..."); a fixed-width integer field falls back to its
type-implied width (an int8 field with length 3 reads 8 bits without error), and a
float field ignores the directive length entirely. -/
theorem c6_generic_width_length_error (env : Env) (fuel : Nat) (r : Rdr)
    (sv : RValue) (ps : List RValue) :
    (∀ L : Int, ¬(L = 1 ∨ L = 2 ∨ L = 4 ∨ L = 8) → ∀ v : GoValue,
      setValueToField env (fuel + 1) r sv ⟨.tInt, true, v⟩
          (some (.mk false (some L) "" [] none)) ps
        = .fail r ⟨.tInt, true, v⟩
            (.newErr "need set tag with len or use int8/int16/int32/int64")) ∧
    (∀ L : Int, ¬(L = 1 ∨ L = 2 ∨ L = 4 ∨ L = 8) → ∀ v : GoValue,
      setValueToField env (fuel + 1) r sv ⟨.tUint, true, v⟩
          (some (.mk false (some L) "" [] none)) ps
        = .fail r ⟨.tUint, true, v⟩
            (.newErr "need set tag with len or use uint8/uint16/uint32/uint64")) ∧
    (r.pos + 1 ≤ r.data.length →
      setValueToField env (fuel + 1) r sv ⟨.tInt8, true, .vInt 0⟩
          (some (.mk false (some 3) "" [] none)) ps
        = .ok (r.advance 1 1)
            ⟨.tInt8, true, .vInt (toSigned 8 (leNat ((r.data.drop r.pos).take 1)))⟩) ∧
    (∀ L : Int, r.pos + 4 ≤ r.data.length →
      setValueToField env (fuel + 1) r sv ⟨.tFloat32, true, .vFloat 0⟩
          (some (.mk false (some L) "" [] none)) ps
        = .ok (r.advance 4 1)
            ⟨.tFloat32, true, .vFloat (leNat ((r.data.drop r.pos).take 4))⟩) := by
  refine ⟨fun L hL v => ?_, fun L hL v => ?_, fun h => ?_, fun L h => ?_⟩
  · push_neg at hL
    obtain ⟨h1, h2, h4, h8⟩ := hL
    simp [setValueToField, setOffset, setOffsetLoop, FieldReadData.ignore,
      FieldReadData.funcName, FieldReadData.length, FieldReadData.offsets, h1, h2, h4, h8]
  · push_neg at hL
    obtain ⟨h1, h2, h4, h8⟩ := hL
    simp [setValueToField, setOffset, setOffsetLoop, FieldReadData.ignore,
      FieldReadData.funcName, FieldReadData.length, FieldReadData.offsets, h1, h2, h4, h8]
  · simp [setValueToField, setOffset, setOffsetLoop, FieldReadData.ignore,
      FieldReadData.funcName, FieldReadData.length, FieldReadData.offsets,
      Rdr.readInt8, readIntW_ok, toSigned, h]
  · simp [setValueToField, setOffset, setOffsetLoop, FieldReadData.ignore,
      FieldReadData.funcName, FieldReadData.length, FieldReadData.offsets,
      Rdr.readFloat32, readUintW_ok, h]

theorem c6_generic_width_length_error_witness :
    setValueToField ⟨fun _ => [], fun _ => []⟩ 1 ⟨[7], 0, 0⟩
        ⟨.tStructRef "S", true, .vStruct []⟩ ⟨.tInt, true, .vInt 0⟩
        (some (.mk false (some 3) "" [] none)) []
      = .fail ⟨[7], 0, 0⟩ ⟨.tInt, true, .vInt 0⟩
          (.newErr "need set tag with len or use int8/int16/int32/int64") :=
  (c6_generic_width_length_error ⟨fun _ => [], fun _ => []⟩ 0 ⟨[7], 0, 0⟩
    ⟨.tStructRef "S", true, .vStruct []⟩ []).1 3 (by decide) (.vInt 0)

/-- C7: when a matched value-returning delegate succeeds on a non-writable field, the
decoded value is silently discarded: `callFunc` reports a match with no error and the
field value untouched, and the delegate path of `setValueToField` returns success
with the field unchanged — the decode continues as if the field were handled. -/
theorem c7_discard_on_unsettable (env : Env) (fuel : Nat) (r r2 : Rdr) (fn : String)
    (sv fv : RValue) (ps : List RValue) (m : GoMethod) (v : GoValue)
    (hfn : ¬fn = "")
    (hset : fv.canSet = false)
    (hm : lookedUpMethod env sv fn = some m)
    (hro : m.takesReaderOnly = true)
    (hsig : m.retTypes = [fv.ty, .tError])
    (hrun : m.run r = (r2, [v, .vError none])) :
    callFunc env r fn sv fv = (r2, fv, true, none) ∧
    setValueToField env (fuel + 1) r sv fv (some (.mk false none fn [] none)) ps
      = .ok r2 fv := by
  have hne : ¬m.retTypes = [GoType.tError] := by
    rw [hsig]; intro hc; exact absurd (congrArg List.length hc) (by simp)
  have hcf : callFunc env r fn sv fv = (r2, fv, true, none) := by
    simp [callFunc, hm, hro, hne, hsig, hrun, getErrVal, hset]
  refine ⟨hcf, ?_⟩
  rw [setValueToField_delegate env fuel r sv fv fn hfn ps, hcf]

/-- Method table for the C7 witness: a value-returning delegate on every record. -/
def c7Env : Env :=
  ⟨fun _ => [],
   fun _ => [⟨"F", true, [.tUint8, .tError], fun rr => (rr, [.vUint 9, .vError none])⟩]⟩

theorem c7_discard_on_unsettable_witness :
    callFunc c7Env ⟨[], 0, 0⟩ "F" ⟨.tStructRef "S", true, .vStruct []⟩
        ⟨.tUint8, false, .vUint 3⟩
      = (⟨[], 0, 0⟩, ⟨.tUint8, false, .vUint 3⟩, true, none) ∧
    setValueToField c7Env 1 ⟨[], 0, 0⟩ ⟨.tStructRef "S", true, .vStruct []⟩
        ⟨.tUint8, false, .vUint 3⟩ (some (.mk false none "F" [] none)) []
      = .ok ⟨[], 0, 0⟩ ⟨.tUint8, false, .vUint 3⟩ :=
  c7_discard_on_unsettable c7Env 0 ⟨[], 0, 0⟩ ⟨[], 0, 0⟩ "F"
    ⟨.tStructRef "S", true, .vStruct []⟩ ⟨.tUint8, false, .vUint 3⟩ []
    ⟨"F", true, [.tUint8, .tError], fun rr => (rr, [.vUint 9, .vError none])⟩ (.vUint 9)
    (by decide) rfl rfl rfl rfl rfl

/-- C1: for a delegated field the engine first tries the named routine on the
currently decoding record; only if that record offers no compatible routine does it
try the enclosing records from nearest ancestor to outermost, stopping at the first
compatible one; with no compatible routine anywhere, the decode fails with the error
naming the two accepted signatures, the declaring record's type name, the method
name, and the field's static type.  Part 1: a compatible current record is served
immediately from the unchanged reader.  Part 2: in the candidate order
current :: reversed-ancestors, the first compatible candidate serves the field (from
some intermediate reader state, the earlier incompatible candidates having only been
probed).  Part 3: with no compatible candidate, the descriptive error results and
the field value is untouched. -/
theorem c1_delegation_resolution (env : Env) (fuel : Nat) (r : Rdr) (sv fv : RValue)
    (parents : List RValue) (fn : String) (hfn : ¬fn = "") :
    (offersCompatible env sv fv.ty fn →
      setValueToField env (fuel + 1) r sv fv (some (.mk false none fn [] none)) parents
        = delegateOutcome (callFunc env r fn sv fv)) ∧
    (∀ pre c post, sv :: parents.reverse = pre ++ c :: post →
      (∀ p ∈ pre, ¬offersCompatible env p fv.ty fn) →
      offersCompatible env c fv.ty fn →
      ∃ r0, setValueToField env (fuel + 1) r sv fv (some (.mk false none fn [] none)) parents
        = delegateOutcome (callFunc env r0 fn c fv)) ∧
    ((∀ p ∈ sv :: parents.reverse, ¬offersCompatible env p fv.ty fn) →
      ∃ r3, setValueToField env (fuel + 1) r sv fv (some (.mk false none fn [] none)) parents
        = .fail r3 fv (.newErr (callFuncErrMessage sv.ty.typeName fn fv.ty.str))) := by
  have noMatchStep : ∀ (r2 : Rdr),
      callFunc env r fn sv fv = (r2, fv, false, none) →
      setValueToField env (fuel + 1) r sv fv (some (.mk false none fn [] none)) parents
        = match tryParentFuncs env fn r2 fv parents.reverse with
          | .errored r3 fv3 e => Res.fail r3 fv3 (.wrap "call custom func" (.newErr e))
          | .served r3 fv3 => Res.ok r3 fv3
          | .noMatch r3 fv3 =>
            Res.fail r3 fv3 (.newErr (callFuncErrMessage sv.ty.typeName fn fv.ty.str)) := by
    intro r2 hcf
    rw [setValueToField_delegate env fuel r sv fv fn hfn parents, hcf]
  have served : ∀ (c : RValue) (r0 : Rdr), offersCompatible env c fv.ty fn →
      (match callResOf (callFunc env r0 fn c fv) with
        | .errored r3 fv3 e => Res.fail r3 fv3 (.wrap "call custom func" (.newErr e))
        | .served r3 fv3 => Res.ok r3 fv3
        | .noMatch r3 fv3 =>
          Res.fail r3 fv3 (.newErr (callFuncErrMessage sv.ty.typeName fn fv.ty.str)))
        = delegateOutcome (callFunc env r0 fn c fv) := by
    intro c r0 hc
    have hflag := callFunc_flag_true_of_compatible env r0 fn c fv hc
    rcases hcf : callFunc env r0 fn c fv with ⟨ra, fva, fl, er⟩
    rw [hcf] at hflag
    simp only at hflag
    subst hflag
    cases er <;> rfl
  refine ⟨fun hc => ?_, fun pre c post hsplit hpre hc => ?_, fun hall => ?_⟩
  · rw [setValueToField_delegate env fuel r sv fv fn hfn parents]
    have hflag := callFunc_flag_true_of_compatible env r fn sv fv hc
    rcases hcf : callFunc env r fn sv fv with ⟨ra, fva, fl, er⟩
    rw [hcf] at hflag
    simp only at hflag
    subst hflag
    cases er <;> rfl
  · cases pre with
    | nil =>
      simp only [List.nil_append] at hsplit
      injection hsplit with h1 h2
      subst h1
      refine ⟨r, ?_⟩
      rw [setValueToField_delegate env fuel r sv fv fn hfn parents]
      have hflag := callFunc_flag_true_of_compatible env r fn sv fv hc
      rcases hcf : callFunc env r fn sv fv with ⟨ra, fva, fl, er⟩
      rw [hcf] at hflag
      simp only at hflag
      subst hflag
      cases er <;> rfl
    | cons p pre2 =>
      rw [List.cons_append] at hsplit
      injection hsplit with h1 h2
      subst h1
      obtain ⟨r2, hcf⟩ := callFunc_not_compatible env r fn sv fv (hpre sv (by simp))
      obtain ⟨r0, htp⟩ := tryParents_first_compatible env fn pre2 c post r2 fv
        (fun q hq => hpre q (by simp [hq])) hc
      refine ⟨r0, ?_⟩
      rw [noMatchStep r2 hcf, h2, htp]
      exact served c r0 hc
  · obtain ⟨r2, hcf⟩ := callFunc_not_compatible env r fn sv fv (hall sv (by simp))
    obtain ⟨r3, htp⟩ := tryParents_no_match env fn parents.reverse r2 fv
      (fun p hp => hall p (by simp [hp]))
    refine ⟨r3, ?_⟩
    rw [noMatchStep r2 hcf, htp]

/-- Method table for the C1 witness: the delegate exists only on the outermost
record type "Outer"; records "S" and "Mid" offer nothing. -/
def c1Env : Env :=
  ⟨fun _ => [],
   fun n => if n = "Outer" then [⟨"F", true, [.tError], fun rr => (rr, [.vError none])⟩]
            else []⟩

theorem c1_delegation_resolution_witness :
    ∃ r0, setValueToField c1Env 1 ⟨[], 0, 0⟩ ⟨.tStructRef "S", true, .vStruct []⟩
        ⟨.tUint8, true, .vUint 0⟩ (some (.mk false none "F" [] none))
        [⟨.tStructRef "Outer", true, .vStruct []⟩, ⟨.tStructRef "Mid", true, .vStruct []⟩]
      = delegateOutcome (callFunc c1Env r0 "F" ⟨.tStructRef "Outer", true, .vStruct []⟩
          ⟨.tUint8, true, .vUint 0⟩) :=
  ((c1_delegation_resolution c1Env 0 ⟨[], 0, 0⟩ ⟨.tStructRef "S", true, .vStruct []⟩
      ⟨.tUint8, true, .vUint 0⟩
      [⟨.tStructRef "Outer", true, .vStruct []⟩, ⟨.tStructRef "Mid", true, .vStruct []⟩]
      "F" (by decide)).2.1
    [⟨.tStructRef "S", true, .vStruct []⟩, ⟨.tStructRef "Mid", true, .vStruct []⟩]
    ⟨.tStructRef "Outer", true, .vStruct []⟩ [] rfl
    (by
      intro p hp
      simp only [List.mem_cons, List.mem_singleton] at hp
      rcases hp with rfl | rfl | hp
      · exact fun ⟨m, hm, _⟩ => nomatch hm
      · exact fun ⟨m, hm, _⟩ => nomatch hm
      · exact absurd hp (List.not_mem_nil p))
    ⟨⟨"F", true, [.tError], fun rr => (rr, [.vError none])⟩, rfl, rfl, Or.inl rfl⟩)

/-! ### Lemmas about array and sequence element decoding (unsigned-8-bit elements) -/

lemma u8_elem_decode (env : Env) (fuel : Nat) (r : Rdr) (sv : RValue) (ps : List RValue)
    (h : r.pos + 1 ≤ r.data.length) :
    setValueToField env (fuel + 1) r sv ⟨.tUint8, true, zeroValue env (fuel + 1) .tUint8⟩
        none ps
      = .ok (r.advance 1 1) ⟨.tUint8, true, .vUint (leNat ((r.data.drop r.pos).take 1))⟩ := by
  simp [setValueToField, zeroValue, emptyFieldReadData, FieldReadData.ignore,
    FieldReadData.funcName, FieldReadData.length, FieldReadData.offsets, setOffset,
    setOffsetLoop, Rdr.readUint8, readUintW_ok r 1 h]

lemma leNat_single (b : Nat) : leNat [b] = b % 256 := by
  simp [leNat]

lemma arrayLoop_u8_ok (env : Env) (fuel : Nat) (sv : RValue) (ps : List RValue)
    (ty : GoType) :
    ∀ (c idx : Nat) (r : Rdr) (es : List GoValue),
      idx + c ≤ es.length → r.pos + c ≤ r.data.length →
      arrayLoopS
          (fun rr => setValueToField env (fuel + 1) rr sv
            ⟨.tUint8, true, zeroValue env (fuel + 1) .tUint8⟩ none ps)
          idx c r ⟨ty, true, .vArray es⟩
        = .ok (r.advance c c)
            ⟨ty, true, .vArray (writeSeq es idx (bytesToU8 ((r.data.drop r.pos).take c)))⟩ := by
  intro c
  induction c with
  | zero =>
    intro idx r es _ _
    simp [arrayLoopS, Rdr.advance, writeSeq, bytesToU8]
  | succ c ih =>
    intro idx r es hlen hdata
    have h1 : r.pos + 1 ≤ r.data.length := by omega
    have hpos : r.pos < r.data.length := by omega
    have hidx : idx < es.length := by omega
    have hstep := u8_elem_decode env fuel r sv ps h1
    rw [show arrayLoopS
        (fun rr => setValueToField env (fuel + 1) rr sv
          ⟨.tUint8, true, zeroValue env (fuel + 1) .tUint8⟩ none ps)
        idx (c + 1) r ⟨ty, true, .vArray es⟩
      = arrayLoopS
          (fun rr => setValueToField env (fuel + 1) rr sv
            ⟨.tUint8, true, zeroValue env (fuel + 1) .tUint8⟩ none ps)
          (idx + 1) c (r.advance 1 1)
          ⟨ty, true, .vArray (es.set idx (.vUint (leNat ((r.data.drop r.pos).take 1))))⟩
      from by simp [arrayLoopS, hstep, hidx]]
    rw [ih (idx + 1) (r.advance 1 1)
      (es.set idx (.vUint (leNat ((r.data.drop r.pos).take 1))))
      (by simp [Rdr.advance]; omega) (by simp [Rdr.advance]; omega)]
    have hadv : (r.advance 1 1).advance c c = r.advance (c + 1) (c + 1) := by
      simp [Rdr.advance]; omega
    rw [hadv]
    have hdrop : r.data.drop r.pos = r.data.get ⟨r.pos, hpos⟩ :: r.data.drop (r.pos + 1) :=
      List.drop_eq_getElem_cons hpos
    have htake1 : (r.data.drop r.pos).take 1 = [r.data.get ⟨r.pos, hpos⟩] := by
      rw [hdrop]; rfl
    have htakeS : (r.data.drop r.pos).take (c + 1)
        = r.data.get ⟨r.pos, hpos⟩ :: (r.data.drop (r.pos + 1)).take c := by
      rw [hdrop]; rfl
    rw [htake1, htakeS]
    simp [Rdr.advance, bytesToU8, writeSeq, leNat_single]

lemma arrayLoop_u8_crash (env : Env) (fuel : Nat) (sv : RValue) (ps : List RValue)
    (ty : GoType) :
    ∀ (c idx : Nat) (r : Rdr) (es : List GoValue),
      es.length < idx + c → idx ≤ es.length →
      r.pos + (es.length - idx) + 1 ≤ r.data.length →
      arrayLoopS
          (fun rr => setValueToField env (fuel + 1) rr sv
            ⟨.tUint8, true, zeroValue env (fuel + 1) .tUint8⟩ none ps)
          idx c r ⟨ty, true, .vArray es⟩
        = .crash "reflect: array index out of range" := by
  intro c
  induction c with
  | zero => intro idx r es h1 h2 _; omega
  | succ c ih =>
    intro idx r es h1 h2 h3
    have hr1 : r.pos + 1 ≤ r.data.length := by omega
    have hstep := u8_elem_decode env fuel r sv ps hr1
    by_cases hidx : idx < es.length
    · rw [show arrayLoopS
          (fun rr => setValueToField env (fuel + 1) rr sv
            ⟨.tUint8, true, zeroValue env (fuel + 1) .tUint8⟩ none ps)
          idx (c + 1) r ⟨ty, true, .vArray es⟩
        = arrayLoopS
            (fun rr => setValueToField env (fuel + 1) rr sv
              ⟨.tUint8, true, zeroValue env (fuel + 1) .tUint8⟩ none ps)
            (idx + 1) c (r.advance 1 1)
            ⟨ty, true, .vArray (es.set idx (.vUint (leNat ((r.data.drop r.pos).take 1))))⟩
        from by simp [arrayLoopS, hstep, hidx]]
      exact ih (idx + 1) (r.advance 1 1)
        (es.set idx (.vUint (leNat ((r.data.drop r.pos).take 1))))
        (by simp; omega) (by simp; omega) (by simp [Rdr.advance]; omega)
    · have heq : ¬idx < es.length := hidx
      simp [arrayLoopS, hstep, heq]

/-- Unfolding of `setValueToField` on an array field with an explicit nonzero
directive length. -/
lemma setValueToField_array_len (env : Env) (fuel : Nat) (r : Rdr) (sv : RValue)
    (n : Nat) (ety : GoType) (cs : Bool) (v : GoValue) (L : Int)
    (efd : Option FieldReadData) (ps : List RValue) (hL : ¬L = 0) :
    setValueToField env (fuel + 1) r sv ⟨.tArray n ety, cs, v⟩
        (some (.mk false (some L) "" [] efd)) ps
      = arrayLoopS
          (fun rr => setValueToField env fuel rr sv ⟨ety, true, zeroValue env fuel ety⟩ efd ps)
          0 L.toNat r ⟨.tArray n ety, cs, v⟩ := by
  simp [setValueToField, FieldReadData.ignore, FieldReadData.funcName, FieldReadData.length,
    FieldReadData.offsets, FieldReadData.elemFieldData, setOffset, setOffsetLoop, hL]

/-- Unfolding of `setValueToField` on an array field with no directive length: the
array's full static size is decoded. -/
lemma setValueToField_array_default (env : Env) (fuel : Nat) (r : Rdr) (sv : RValue)
    (n : Nat) (ety : GoType) (cs : Bool) (v : GoValue)
    (efd : Option FieldReadData) (ps : List RValue) :
    setValueToField env (fuel + 1) r sv ⟨.tArray n ety, cs, v⟩
        (some (.mk false none "" [] efd)) ps
      = arrayLoopS
          (fun rr => setValueToField env fuel rr sv ⟨ety, true, zeroValue env fuel ety⟩ efd ps)
          0 n r ⟨.tArray n ety, cs, v⟩ := by
  simp [setValueToField, FieldReadData.ignore, FieldReadData.funcName, FieldReadData.length,
    FieldReadData.offsets, FieldReadData.elemFieldData, setOffset, setOffsetLoop]

/-- C9: per-element indexed assignment in a settable fixed-length array decode.
Part 1: when the directive length is at most the array's static length, every
indexed write is in bounds and the decode succeeds, filling the first `L` slots from
the stream.  Part 2: when the directive declares a length strictly greater than the
static length, the engine does not guard the index and a write past the array's end
is attempted — a runtime panic of `reflect.Value.Index` — instead of an error
(element kind: unsigned 8-bit). -/
theorem c9_array_bounds (env : Env) (fuel : Nat) (r : Rdr) (sv : RValue)
    (ps : List RValue) (n : Nat) :
    (∀ (L : Nat) (es : List GoValue), 0 < L → L ≤ n → es.length = n →
      r.pos + L ≤ r.data.length →
      setValueToField env (fuel + 2) r sv ⟨.tArray n .tUint8, true, .vArray es⟩
          (some (.mk false (some (L : Int)) "" [] none)) ps
        = .ok (r.advance L L)
            ⟨.tArray n .tUint8, true,
              .vArray (writeSeq es 0 (bytesToU8 ((r.data.drop r.pos).take L)))⟩) ∧
    (∀ (L : Nat) (es : List GoValue), n < L → es.length = n →
      r.pos + n + 1 ≤ r.data.length →
      setValueToField env (fuel + 2) r sv ⟨.tArray n .tUint8, true, .vArray es⟩
          (some (.mk false (some (L : Int)) "" [] none)) ps
        = .crash "reflect: array index out of range") := by
  constructor
  · intro L es hL hLn hlen hdata
    have hL0 : ¬(L : Int) = 0 := by
      intro hc
      omega
    rw [setValueToField_array_len env (fuel + 1) r sv n .tUint8 true (.vArray es)
      (L : Int) none ps hL0]
    rw [Int.toNat_natCast]
    exact arrayLoop_u8_ok env fuel sv ps (.tArray n .tUint8) L 0 r es (by omega) hdata
  · intro L es hnL hlen hdata
    have hL0 : ¬(L : Int) = 0 := by
      intro hc
      omega
    rw [setValueToField_array_len env (fuel + 1) r sv n .tUint8 true (.vArray es)
      (L : Int) none ps hL0]
    rw [Int.toNat_natCast]
    exact arrayLoop_u8_crash env fuel sv ps (.tArray n .tUint8) L 0 r es (by omega)
      (by omega) (by omega)

theorem c9_array_bounds_witness :
    setValueToField ⟨fun _ => [], fun _ => []⟩ 2 ⟨[1, 2], 0, 0⟩
        ⟨.tStructRef "S", true, .vStruct []⟩ ⟨.tArray 1 .tUint8, true, .vArray [.vUint 0]⟩
        (some (.mk false (some 2) "" [] none)) []
      = .crash "reflect: array index out of range" :=
  (c9_array_bounds ⟨fun _ => [], fun _ => []⟩ 0 ⟨[1, 2], 0, 0⟩
    ⟨.tStructRef "S", true, .vStruct []⟩ [] 1).2 2 [.vUint 0]
    (by decide) rfl (by decide)

/-- C10: for a fixed-length array field a directive length of 0 is treated exactly
like an absent length.  Part 1: the decode with length 0 equals the decode with no
length, for any element type, directive and field value.  Part 2: with no directive
length the engine decodes the array's full static number of elements (element kind:
unsigned 8-bit), not zero elements. -/
theorem c10_array_zero_length (env : Env) (fuel : Nat) (r : Rdr) (sv : RValue)
    (ps : List RValue) (n : Nat) (ety : GoType) :
    (∀ (ig : Bool) (fn2 : String) (offs : List (Int × Nat)) (efd : Option FieldReadData)
        (cs : Bool) (v : GoValue),
      setValueToField env fuel r sv ⟨.tArray n ety, cs, v⟩
          (some (.mk ig (some 0) fn2 offs efd)) ps
        = setValueToField env fuel r sv ⟨.tArray n ety, cs, v⟩
            (some (.mk ig none fn2 offs efd)) ps) ∧
    (∀ es : List GoValue, es.length = n → r.pos + n ≤ r.data.length →
      setValueToField env (fuel + 2) r sv ⟨.tArray n .tUint8, true, .vArray es⟩
          (some (.mk false none "" [] none)) ps
        = .ok (r.advance n n)
            ⟨.tArray n .tUint8, true,
              .vArray (writeSeq es 0 (bytesToU8 ((r.data.drop r.pos).take n)))⟩) := by
  constructor
  · intro ig fn2 offs efd cs v
    cases fuel with
    | zero => rfl
    | succ fuel => rfl
  · intro es hlen hdata
    rw [setValueToField_array_default env (fuel + 1) r sv n .tUint8 true (.vArray es) none ps]
    exact arrayLoop_u8_ok env fuel sv ps (.tArray n .tUint8) n 0 r es (by omega) hdata

theorem c10_array_zero_length_witness :
    setValueToField ⟨fun _ => [], fun _ => []⟩ 2 ⟨[4, 5], 0, 0⟩
        ⟨.tStructRef "S", true, .vStruct []⟩
        ⟨.tArray 2 .tUint8, true, .vArray [.vUint 0, .vUint 0]⟩
        (some (.mk false none "" [] none)) []
      = .ok (Rdr.advance ⟨[4, 5], 0, 0⟩ 2 2)
          ⟨.tArray 2 .tUint8, true,
            .vArray (writeSeq [.vUint 0, .vUint 0] 0 (bytesToU8 (([4, 5].drop 0).take 2)))⟩ :=
  (c10_array_zero_length ⟨fun _ => [], fun _ => []⟩ 0 ⟨[4, 5], 0, 0⟩
    ⟨.tStructRef "S", true, .vStruct []⟩ [] 2 .tUint8).2 [.vUint 0, .vUint 0]
    rfl (by decide)

/-- C3: decoding a record returns on the first field that fails, wrapping that
failure with the failing field's name, and performs no rollback.  Part 1
characterises every failing run of the field loop: some field index `j` failed, the
loop restricted to the preceding fields succeeds from the same initial state (so
every earlier field was populated), the resulting error is the field's own failure
wrapped with that field's name, and the returned record value is the successfully
populated prefix state with only slot `j` overwritten by the failing field's partial
value — all earlier decoded values are retained.  Part 2 shows the wrapping composes
through nested records: a nested record field's failure is re-wrapped at the
enclosing level, so the final error traces a path of field names to the failing
leaf. -/
theorem c3_first_failure_no_rollback :
    (∀ (step : Step) (sn : String) (ss : Bool) (ps : List RValue)
        (fields : List StructField) (i : Nat) (vals : List GoValue) (r rF : Rdr)
        (out : List GoValue) (e : GoErrV),
      unmarshalLoopS step sn ss ps r i fields vals = .fail rF out e →
      ∃ j, ∃ hj : j < fields.length, ∃ r0 vals0 fvP e2,
        unmarshalLoopS step sn ss ps r i (fields.take j) vals = .ok r0 vals0 ∧
        step (fields.get ⟨j, hj⟩) ⟨.tStructRef sn, ss, .vStruct vals0⟩
          ⟨(fields.get ⟨j, hj⟩).ty, ss && (fields.get ⟨j, hj⟩).exported,
            vals0.getD (i + j) .vNil⟩ ps r0
          = .fail rF fvP e2 ∧
        e = .wrap ("failed set value to field \"" ++ (fields.get ⟨j, hj⟩).name ++ "\"") e2 ∧
        out = vals0.set (i + j) fvP.val) ∧
    (∀ (env : Env) (fuel : Nat) (r r2 : Rdr) (sv fv : RValue) (ps : List RValue)
        (name : String) (a : UArg) (e : GoErrV),
      fv.ty = .tStructRef name →
      unmarshalCore env (fieldStep env fuel) r (.ptrTo (.tStructRef name) fv.canSet fv.val)
          (ps ++ [sv]) = .fail r2 a e →
      setValueToField env (fuel + 1) r sv fv (some emptyFieldReadData) ps
        = .fail r2 { fv with val := a.ptrVal fv.val } (.wrap "unmarshal struct" e)) := by
  constructor
  · intro step sn ss ps fields
    induction fields with
    | nil =>
      intro i vals r rF out e h
      exact absurd h (by simp [unmarshalLoopS])
    | cons f fs ih =>
      intro i vals r rF out e h
      rw [unmarshalLoopS] at h
      cases hstep : step f ⟨.tStructRef sn, ss, .vStruct vals⟩
          ⟨f.ty, ss && f.exported, vals.getD i .vNil⟩ ps r with
      | ok r2 fv2 =>
        rw [hstep] at h
        simp only at h
        obtain ⟨j, hj, r0, vals0, fvP, e2, hpre, hstepj, he, hout⟩ :=
          ih (i + 1) (vals.set i fv2.val) r2 rF out e h
        refine ⟨j + 1, by simpa using Nat.succ_lt_succ hj, r0, vals0, fvP, e2, ?_, ?_, ?_, ?_⟩
        · rw [show (f :: fs).take (j + 1) = f :: fs.take j from rfl, unmarshalLoopS, hstep]
          exact hpre
        · rw [show (f :: fs).get ⟨j + 1, by simpa using Nat.succ_lt_succ hj⟩
            = fs.get ⟨j, hj⟩ from rfl]
          rw [show i + (j + 1) = (i + 1) + j from by omega]
          exact hstepj
        · rw [show (f :: fs).get ⟨j + 1, by simpa using Nat.succ_lt_succ hj⟩
            = fs.get ⟨j, hj⟩ from rfl]
          exact he
        · rw [show i + (j + 1) = (i + 1) + j from by omega]
          exact hout
      | fail r2 fv2 e2 =>
        rw [hstep] at h
        simp only at h
        injection h with hr hout he
        refine ⟨0, by simp, r, vals, fv2, e2, ?_, ?_, ?_, ?_⟩
        · rfl
        · rw [show (f :: fs).get ⟨0, by simp⟩ = f from rfl]
          rw [show i + 0 = i from rfl]
          exact hr ▸ hstep
        · exact he.symm
        · exact hout.symm
      | crash m =>
        rw [hstep] at h
        exact absurd h (by simp)
      | fuelOut =>
        rw [hstep] at h
        exact absurd h (by simp)
  · intro env fuel r r2 sv fv ps name a e hty h2
    obtain ⟨ty, cs, v⟩ := fv
    simp only at hty
    subst hty
    have h2' : unmarshalCore env
        (fun f sv2 fv2 ps2 rr => setValueToField env fuel rr sv2 fv2 f.fdata ps2) r
        (.ptrTo (.tStructRef name) cs v) (ps ++ [sv]) = .fail r2 a e := h2
    simp [setValueToField, emptyFieldReadData, FieldReadData.ignore, FieldReadData.funcName,
      FieldReadData.offsets, setOffset, setOffsetLoop, h2']

theorem c3_first_failure_no_rollback_witness :
    ∃ j, ∃ hj : j < ([⟨"A", true, none, .tUint8⟩,
        ⟨"B", true, none, .tUint8⟩] : List StructField).length,
      ∃ r0 vals0 fvP e2,
        unmarshalLoopS (fieldStep ⟨fun _ => [], fun _ => []⟩ 1) "S" true []
            ⟨[9], 0, 0⟩ 0
            (([⟨"A", true, none, .tUint8⟩, ⟨"B", true, none, .tUint8⟩] :
              List StructField).take j)
            [.vUint 0, .vUint 0]
          = .ok r0 vals0 ∧
        fieldStep ⟨fun _ => [], fun _ => []⟩ 1
            (([⟨"A", true, none, .tUint8⟩, ⟨"B", true, none, .tUint8⟩] :
              List StructField).get ⟨j, hj⟩)
            ⟨.tStructRef "S", true, .vStruct vals0⟩
            ⟨(([⟨"A", true, none, .tUint8⟩, ⟨"B", true, none, .tUint8⟩] :
                List StructField).get ⟨j, hj⟩).ty,
              true && (([⟨"A", true, none, .tUint8⟩, ⟨"B", true, none, .tUint8⟩] :
                List StructField).get ⟨j, hj⟩).exported,
              vals0.getD (0 + j) .vNil⟩ [] r0
          = .fail ⟨[9], 1, 2⟩ fvP e2 ∧
        GoErrV.wrap "failed set value to field \x22B\x22" (.newErr "EOF")
          = .wrap ("failed set value to field \x22"
              ++ (([⟨"A", true, none, .tUint8⟩, ⟨"B", true, none, .tUint8⟩] :
                List StructField).get ⟨j, hj⟩).name ++ "\x22") e2 ∧
        [GoValue.vUint 9, GoValue.vUint 0] = vals0.set (0 + j) fvP.val :=
  (c3_first_failure_no_rollback).1 (fieldStep ⟨fun _ => [], fun _ => []⟩ 1) "S" true []
    [⟨"A", true, none, .tUint8⟩, ⟨"B", true, none, .tUint8⟩] 0 [.vUint 0, .vUint 0]
    ⟨[9], 0, 0⟩ ⟨[9], 1, 2⟩ [.vUint 9, .vUint 0]
    (.wrap "failed set value to field \x22B\x22" (.newErr "EOF")) rfl

end Binstruct
